import Mathlib

/-!
# qt_get_poi-osm: the POI client `PoiOsmClient` (src/src/PoiOsm.cpp)

A shallow embedding of the query builder, the result normaliser and the two
network completion handlers, followed by the properties proved about them.

Modelling conventions

* `QString` is `String`; `QList T` and `QJsonArray` are `List`.
* A JSON number is a `Double`, modelled by a rational (every finite IEEE double
  is one); the normaliser only copies numbers and substitutes `0`.
* `QJsonObject` is an association list looked up from the front.
* The signal `finished` and the two HTTP requests are recorded as a list of
  `Event`s, in the order the client performs them.
-/

namespace PoiOsm

/-! ## JSON values (QJsonValue, QJsonObject, QJsonArray) -/

/-- Numbers carried by JSON values and by the coordinate arguments. -/
abbrev Double := Rat

/-- The seven kinds of `QJsonValue` (`QJsonValue::Type`). -/
inductive QJsonValue where
  | null
  | bool (b : Bool)
  | double (d : Double)
  | string (s : String)
  | array (a : List QJsonValue)
  | object (o : List (String × QJsonValue))
  | undefined

/-- A JSON object: key and value pairs. -/
abbrev QJsonObject := List (String × QJsonValue)

/-- A JSON array. -/
abbrev QJsonArray := List QJsonValue

/-- `QJsonValue::toObject()`: the object, or an empty object for any other kind. -/
def QJsonValue.toObject : QJsonValue → QJsonObject
  | .object o => o
  | _ => []

/-- `QJsonValue::toString()`: the string, or the empty string for any other kind. -/
def QJsonValue.toString : QJsonValue → String
  | .string s => s
  | _ => ""

/-- `QJsonValue::toDouble()`: the number, or `0` for any other kind. -/
def QJsonValue.toDouble : QJsonValue → Double
  | .double d => d
  | _ => 0

/-- `QJsonValue::toArray()`: the array, or an empty array for any other kind. -/
def QJsonValue.toArray : QJsonValue → QJsonArray
  | .array a => a
  | _ => []

/-- `QJsonObject::value(key)`: the value stored under `key`, or `Undefined`. -/
def QJsonObject.value : QJsonObject → String → QJsonValue
  | [], _ => .undefined
  | (k, v) :: rest, key => if k = key then v else QJsonObject.value rest key

/-- `QJsonObject::contains(key)`. -/
def QJsonObject.contains : QJsonObject → String → Bool
  | [], _ => false
  | (k, _) :: rest, key => if k = key then true else QJsonObject.contains rest key

/-- `obj[key] = v`: replaces the value of an existing key, adds the pair otherwise. -/
def QJsonObject.insert : QJsonObject → String → QJsonValue → QJsonObject
  | [], key, v => [(key, v)]
  | (k, x) :: rest, key, v =>
    if k = key then (key, v) :: rest else (k, x) :: QJsonObject.insert rest key v

/-! ## Data types of PoiOsm.hpp -/

/-- `struct PoiWhitelistEntry`: a tag key and an optional tag value. -/
structure PoiWhitelistEntry where
  key : String
  value : String
  deriving DecidableEq, Repr

/-- `struct PoiResult`: the value carried by the signal `finished`. -/
structure PoiResult where
  json : QJsonObject := []
  ok : Bool := false
  error : String := ""

/-! ## PoiOsmClient::buildResultJson_ -/

/-- The loop `for (const auto &w : whitelist)` of lines 202-208, with the local
`accepted`; the `break` leaves the loop with `accepted = true`. -/
def whitelistLoop (tags : QJsonObject) : List PoiWhitelistEntry → Bool → Bool
  | [], accepted => accepted
  | w :: rest, accepted =>
    let val := (QJsonObject.value tags w.key).toString
    if !val.isEmpty && (w.value.isEmpty || val == w.value) then
      true
    else
      whitelistLoop tags rest accepted

/-- The loop `for (const auto &v : elements)` of lines 191-225, with the local
`poisArray`; each `continue` goes on with the next element and the array
unchanged. -/
def poisLoop (whitelist : List PoiWhitelistEntry) : List QJsonValue → QJsonArray → QJsonArray
  | [], poisArray => poisArray
  | v :: rest, poisArray =>
    let obj := v.toObject
    if (QJsonObject.value obj "type").toString != "node" then
      poisLoop whitelist rest poisArray
    else
      let lat := (QJsonObject.value obj "lat").toDouble
      let lon := (QJsonObject.value obj "lon").toDouble
      let tags := (QJsonObject.value obj "tags").toObject
      let accepted := whitelist.isEmpty
      let accepted := if !accepted then whitelistLoop tags whitelist accepted else accepted
      if !accepted then
        poisLoop whitelist rest poisArray
      else
        let poi : QJsonObject := []
        let poi := QJsonObject.insert poi "lat" (.double lat)
        let poi := QJsonObject.insert poi "lon" (.double lon)
        let poi :=
          if QJsonObject.contains tags "name" then
            QJsonObject.insert poi "name" (.string (QJsonObject.value tags "name").toString)
          else
            QJsonObject.insert poi "name" .null
        let poi := QJsonObject.insert poi "tags" (.object tags)
        poisLoop whitelist rest (poisArray ++ [.object poi])

/-- The loop of lines 178-183 that echoes the whitelist into `wlArray`. -/
def whitelistArrayLoop : List PoiWhitelistEntry → QJsonArray → QJsonArray
  | [], wlArray => wlArray
  | w :: rest, wlArray =>
    let o : QJsonObject := []
    let o := QJsonObject.insert o "key" (.string w.key)
    let o := QJsonObject.insert o "value" (.string w.value)
    whitelistArrayLoop rest (wlArray ++ [.object o])

/-- `PoiOsmClient::buildResultJson_`. The argument `timestampUtc` stands for
`QDateTime::currentDateTimeUtc().toString(Qt::ISODate)`, the one value the
function reads from outside its arguments. -/
def buildResultJson_ (timestampUtc : String) (centerLat centerLon : Double)
    (radiusMeters : Int) (whitelist : List PoiWhitelistEntry) (elements : QJsonArray)
    (queryInput : QJsonObject) : QJsonObject :=
  let root : QJsonObject := []
  let root := QJsonObject.insert root "schema_version" (.double 1)
  let source : QJsonObject := []
  let source := QJsonObject.insert source "provider" (.string "OpenStreetMap")
  let source := QJsonObject.insert source "geocoder" (.string "Nominatim")
  let source := QJsonObject.insert source "overpass_endpoint"
    (.string "https://overpass-api.de/api/interpreter")
  let root := QJsonObject.insert root "source" (.object source)
  let query : QJsonObject := []
  let query := QJsonObject.insert query "input" (.object queryInput)
  let resolvedCenter : QJsonObject := []
  let resolvedCenter := QJsonObject.insert resolvedCenter "lat" (.double centerLat)
  let resolvedCenter := QJsonObject.insert resolvedCenter "lon" (.double centerLon)
  let query := QJsonObject.insert query "resolved_center" (.object resolvedCenter)
  let query := QJsonObject.insert query "radius_m" (.double radiusMeters)
  let wlArray := whitelistArrayLoop whitelist []
  let query := QJsonObject.insert query "whitelist" (.array wlArray)
  let query := QJsonObject.insert query "timestamp_utc" (.string timestampUtc)
  let root := QJsonObject.insert root "query" (.object query)
  let poisArray := poisLoop whitelist elements []
  let results : QJsonObject := []
  let results := QJsonObject.insert results "count" (.double poisArray.length)
  let results := QJsonObject.insert results "pois" (.array poisArray)
  let root := QJsonObject.insert root "results" (.object results)
  root

/-- The member `results.pois` of a result document. -/
def resultPois (root : QJsonObject) : QJsonArray :=
  (QJsonObject.value (QJsonObject.value root "results").toObject "pois").toArray

/-- The member `results.count` of a result document. -/
def resultCount (root : QJsonObject) : QJsonValue :=
  QJsonObject.value (QJsonObject.value root "results").toObject "count"

/-! ## QString::arg

`QString::arg` replaces every occurrence of the lowest-numbered place marker
(`%1` ... `%99`, optionally written `%L1`) by its argument. The scanner below
follows `findArgEscapes` of qstring.cpp: a `%` that is not followed by a digit
is ordinary text and the character after it is looked at again. Digits are the
ASCII digits. -/

/-- A piece of a scanned format string: one character of ordinary text, or a
place marker with its number and the characters it was written with. -/
inductive ArgPiece where
  | text (c : Char)
  | escape (n : Nat) (raw : List Char)

/-- Where the scanner is inside a possible place marker. -/
inductive ScanState where
  | idle
  | pct
  | pctL
  | digit (n : Nat) (raw : List Char)

/-- The value of an ASCII digit. -/
def digitValue (c : Char) : Nat := c.toNat - 48

/-- Splits a format string into text and place markers. -/
def scanEscapes : ScanState → List Char → List ArgPiece
  | .idle, [] => []
  | .idle, c :: rest =>
    if c = '%' then scanEscapes .pct rest else .text c :: scanEscapes .idle rest
  | .pct, [] => [.text '%']
  | .pct, c :: rest =>
    if c = 'L' then scanEscapes .pctL rest
    else if c.isDigit then scanEscapes (.digit (digitValue c) ['%', c]) rest
    else if c = '%' then .text '%' :: scanEscapes .pct rest
    else .text '%' :: .text c :: scanEscapes .idle rest
  | .pctL, [] => [.text '%', .text 'L']
  | .pctL, c :: rest =>
    if c.isDigit then scanEscapes (.digit (digitValue c) ['%', 'L', c]) rest
    else if c = '%' then .text '%' :: .text 'L' :: scanEscapes .pct rest
    else .text '%' :: .text 'L' :: .text c :: scanEscapes .idle rest
  | .digit n raw, [] => [.escape n raw]
  | .digit n raw, c :: rest =>
    if c.isDigit then .escape (10 * n + digitValue c) (raw ++ [c]) :: scanEscapes .idle rest
    else if c = '%' then .escape n raw :: scanEscapes .pct rest
    else .escape n raw :: .text c :: scanEscapes .idle rest

/-- The lowest place-marker number that is greater than or equal to `lo`, if any. -/
def minEscape (lo : Nat) : List ArgPiece → Option Nat
  | [] => none
  | .text _ :: rest => minEscape lo rest
  | .escape n _ :: rest =>
    match minEscape lo rest with
    | none => if lo ≤ n then some n else none
    | some m => if lo ≤ n then some (min n m) else some m

/-- Writes the pieces back, with the markers numbered `m1` replaced by `a1` and
the markers numbered `m2` (when there is such a number) replaced by `a2`. -/
def replaceArgEscapes (m1 : Nat) (a1 : List Char) (m2 : Option Nat) (a2 : List Char) :
    List ArgPiece → List Char
  | [] => []
  | .text c :: rest => c :: replaceArgEscapes m1 a1 m2 a2 rest
  | .escape n raw :: rest =>
    if n = m1 then a1 ++ replaceArgEscapes m1 a1 m2 a2 rest
    else if some n = m2 then a2 ++ replaceArgEscapes m1 a1 m2 a2 rest
    else raw ++ replaceArgEscapes m1 a1 m2 a2 rest

/-- `QString::arg(const QString &a)`: the lowest-numbered marker is replaced by
`a`; a string without a marker is returned unchanged. -/
def QString.arg (s : String) (a : String) : String :=
  let pieces := scanEscapes .idle s.data
  match minEscape 0 pieces with
  | none => s
  | some m => ⟨replaceArgEscapes m a.data none [] pieces⟩

/-- `QString::arg(const QString &a1, const QString &a2)`: the two lowest marker
numbers are replaced by `a1` and `a2` in one pass, so that a marker occurring
inside `a1` is not replaced by `a2`. The library reads the markers of this
overload with up to three digits; on markers of one digit followed by a
character that is not a digit, the only ones in this program, that reading and
`scanEscapes` agree. -/
def QString.arg2 (s : String) (a1 a2 : String) : String :=
  let pieces := scanEscapes .idle s.data
  match minEscape 0 pieces with
  | none => s
  | some m => ⟨replaceArgEscapes m a1.data (minEscape (m + 1) pieces) a2.data pieces⟩

/-- `QString::arg(int a)`: the decimal rendering of `a` is inserted. -/
def QString.argInt (s : String) (a : Int) : String :=
  QString.arg s (toString a)

/-- `QString::arg(double a, int fieldWidth, char format, int precision)` with
field width `0`. The rendering of a double is the library's; it is the argument
`number`. -/
def QString.argDouble (number : Double → Char → Nat → String) (s : String) (a : Double)
    (format : Char) (precision : Nat) : String :=
  QString.arg s (number a format precision)

/-! ## PoiOsmClient::buildOverpassQuery_ -/

/-- The loop `for (const auto &w : whitelist)` of lines 133-147, with the local
`query`. -/
def overpassClauseLoop (number : Double → Char → Nat → String) (lat lon : Double)
    (radiusMeters : Int) : List PoiWhitelistEntry → String → String
  | [], query => query
  | w :: rest, query =>
    if w.value.isEmpty then
      let t := "node(around:%1,%2,%3)[\"%4\"];"
      let t := QString.argInt t radiusMeters
      let t := QString.argDouble number t lat 'f' 6
      let t := QString.argDouble number t lon 'f' 6
      let t := QString.arg t w.key
      overpassClauseLoop number lat lon radiusMeters rest (query ++ t)
    else
      let t := "node(around:%1,%2,%3)[\"%4\"=\"%5\"];"
      let t := QString.argInt t radiusMeters
      let t := QString.argDouble number t lat 'f' 6
      let t := QString.argDouble number t lon 'f' 6
      let t := QString.arg2 t w.key w.value
      overpassClauseLoop number lat lon radiusMeters rest (query ++ t)

/-- `PoiOsmClient::buildOverpassQuery_`. -/
def buildOverpassQuery_ (number : Double → Char → Nat → String) (lat lon : Double)
    (radiusMeters : Int) (whitelist : List PoiWhitelistEntry) : String :=
  let query := "[out:json][timeout:25];("
  let query :=
    if whitelist.isEmpty then
      let t := "node(around:%1,%2,%3);"
      let t := QString.argInt t radiusMeters
      let t := QString.argDouble number t lat 'f' 6
      let t := QString.argDouble number t lon 'f' 6
      query ++ t
    else
      overpassClauseLoop number lat lon radiusMeters whitelist query
  let query := query ++ ");out center;"
  query

/-! ## The network side: requests, replies and the signal `finished` -/

/-- A request handed to `QNetworkAccessManager`. -/
structure QNetworkRequest where
  url : String
  queryItems : List (String × String) := []
  headers : List (String × String) := []

/-- What a finished `QNetworkReply` shows to its handler. -/
structure QNetworkReply where
  /-- Whether `reply->error() != QNetworkReply::NoError`. -/
  failed : Bool
  errorString : String
  /-- The bytes returned by `readAll()`. -/
  data : String

/-- The outcome of `QJsonDocument::fromJson(data, &err)`. -/
structure QJsonParse where
  /-- Whether `err.error != QJsonParseError::NoError`. -/
  failed : Bool
  errorString : String
  /-- The top-level value of the document; `null` for a null document. -/
  doc : QJsonValue

/-- The library and the outside world, as far as the client uses them. -/
structure Qt where
  /-- The rendering of a double in the given format and precision. -/
  number : Double → Char → Nat → String
  /-- `QString::toDouble(&ok)`: the returned number and the flag `ok`. -/
  toDouble : String → Double × Bool
  /-- `QJsonDocument::fromJson`. -/
  fromJson : String → QJsonParse
  /-- `QUrl::toPercentEncoding`. -/
  toPercentEncoding : String → String
  /-- `QDateTime::currentDateTimeUtc().toString(Qt::ISODate)`. -/
  currentDateTimeUtc : String
  /-- The reply with which a GET request finishes. -/
  getReply : QNetworkRequest → QNetworkReply
  /-- The reply with which a POST request finishes. -/
  postReply : QNetworkRequest → String → QNetworkReply

/-- What the client does that can be observed from outside, in order. -/
inductive Event where
  | get (req : QNetworkRequest)
  | post (req : QNetworkRequest) (body : String)
  | finished (result : PoiResult)

/-- `QJsonDocument::isArray()`. -/
def QJsonValue.isArray : QJsonValue → Bool
  | .array _ => true
  | _ => false

/-- `QJsonDocument::isObject()`. -/
def QJsonValue.isObject : QJsonValue → Bool
  | .object _ => true
  | _ => false

/-- The static function `userAgent()`. -/
def userAgent : String := "qt_get_poi-osm/1.1.0 (contact: example@example.com)"

/-- The handler connected to the reply in `queryOverpass_` (lines 252-283). -/
def overpassFinished (qt : Qt) (reply : QNetworkReply) (lat lon : Double) (radiusMeters : Int)
    (whitelist : List PoiWhitelistEntry) (queryInput : QJsonObject) : List Event :=
  let result : PoiResult := {}
  if reply.failed then
    let result := { result with ok := false }
    let result := { result with error := QString.arg "Overpass error: %1" reply.errorString }
    [.finished result]
  else
    let data := reply.data
    let err := qt.fromJson data
    let doc := err.doc
    if err.failed || !doc.isObject then
      let result := { result with ok := false }
      let result := { result with error := QString.arg "Invalid Overpass JSON: %1" err.errorString }
      [.finished result]
    else
      let rootObj := doc.toObject
      let elements := (QJsonObject.value rootObj "elements").toArray
      let result := { result with ok := true }
      let result := { result with json := (buildResultJson_ qt.currentDateTimeUtc lat lon
        radiusMeters whitelist elements queryInput) }
      [.finished result]

/-- `PoiOsmClient::queryOverpass_`: the POST request is issued, and its reply
finishes once and runs the handler. -/
def queryOverpass_ (qt : Qt) (lat lon : Double) (radiusMeters : Int)
    (whitelist : List PoiWhitelistEntry) (queryInput : QJsonObject) : List Event :=
  let req : QNetworkRequest := { url := "https://overpass-api.de/api/interpreter" }
  let req := { req with headers := (req.headers ++
    [("Content-Type", "application/x-www-form-urlencoded")]) }
  let req := { req with headers := req.headers ++ [("User-Agent", userAgent)] }
  let query := buildOverpassQuery_ qt.number lat lon radiusMeters whitelist
  let body := "data=" ++ qt.toPercentEncoding query
  let reply := qt.postReply req body
  .post req body :: overpassFinished qt reply lat lon radiusMeters whitelist queryInput

/-- The handler connected to the reply in `geocodeAddress_` (lines 71-119). -/
def geocodeFinished (qt : Qt) (reply : QNetworkReply) (address : String) (radiusMeters : Int)
    (whitelist : List PoiWhitelistEntry) : List Event :=
  let result : PoiResult := {}
  if reply.failed then
    let result := { result with ok := false }
    let result := { result with error := QString.arg "Geocoding error: %1" reply.errorString }
    [.finished result]
  else
    let data := reply.data
    let err := qt.fromJson data
    let doc := err.doc
    if err.failed || !doc.isArray then
      let result := { result with ok := false }
      let result := { result with error := QString.arg "Invalid geocoding JSON: %1" err.errorString }
      [.finished result]
    else
      let arr := doc.toArray
      if arr.isEmpty then
        let result := { result with ok := false }
        let result := { result with error := "No geocoding result for address" }
        [.finished result]
      else
        let obj := (arr.head?.getD .undefined).toObject
        let lat := (qt.toDouble (QJsonObject.value obj "lat").toString).1
        let okLat := (qt.toDouble (QJsonObject.value obj "lat").toString).2
        let lon := (qt.toDouble (QJsonObject.value obj "lon").toString).1
        let okLon := (qt.toDouble (QJsonObject.value obj "lon").toString).2
        if !okLat || !okLon then
          let result := { result with ok := false }
          let result := { result with error := "Invalid coordinates in geocoding response" }
          [.finished result]
        else
          let input : QJsonObject := []
          let input := QJsonObject.insert input "address" (.string address)
          let input := QJsonObject.insert input "lat" .null
          let input := QJsonObject.insert input "lon" .null
          queryOverpass_ qt lat lon radiusMeters whitelist input

/-- `PoiOsmClient::geocodeAddress_`: the GET request is issued, and its reply
finishes once and runs the handler. -/
def geocodeAddress_ (qt : Qt) (address : String) (radiusMeters : Int)
    (whitelist : List PoiWhitelistEntry) : List Event :=
  let req : QNetworkRequest := { url := "https://nominatim.openstreetmap.org/search" }
  let req := { req with queryItems := req.queryItems ++ [("q", address)] }
  let req := { req with queryItems := req.queryItems ++ [("format", "json")] }
  let req := { req with queryItems := req.queryItems ++ [("limit", "1")] }
  let req := { req with headers := req.headers ++ [("User-Agent", userAgent)] }
  let reply := qt.getReply req
  .get req :: geocodeFinished qt reply address radiusMeters whitelist

/-- `PoiOsmClient::queryByAddress`. -/
def queryByAddress (qt : Qt) (address : String) (radiusMeters : Int)
    (whitelist : List PoiWhitelistEntry) : List Event :=
  geocodeAddress_ qt address radiusMeters whitelist

/-- `PoiOsmClient::queryByCoordinates`. -/
def queryByCoordinates (qt : Qt) (lat lon : Double) (radiusMeters : Int)
    (whitelist : List PoiWhitelistEntry) : List Event :=
  let input : QJsonObject := []
  let input := QJsonObject.insert input "address" .null
  let input := QJsonObject.insert input "lat" (.double lat)
  let input := QJsonObject.insert input "lon" (.double lon)
  queryOverpass_ qt lat lon radiusMeters whitelist input

/-- The results carried by the `finished` signals of a run, in order. -/
def finishedResults : List Event → List PoiResult
  | [] => []
  | .finished r :: rest => r :: finishedResults rest
  | _ :: rest => finishedResults rest

/-- The bodies of the POST requests of a run, in order. -/
def postedBodies : List Event → List String
  | [] => []
  | .post _ body :: rest => body :: postedBodies rest
  | _ :: rest => postedBodies rest

/-! ## The normaliser as the specification words it (section 4.2) -/

/-- Section 4.2, the filter entry by entry: the entry's key is present in the
tags with a non-empty value, and the entry's value is empty or equal to it. -/
def entryMatches (tags : QJsonObject) (w : PoiWhitelistEntry) : Bool :=
  let v := (QJsonObject.value tags w.key).toString
  v != "" && (w.value == "" || v == w.value)

/-- Section 4.2, the acceptance rule: the element is a node, and the whitelist is
empty or one of its entries matches the element's tags. -/
def acceptsElement (whitelist : List PoiWhitelistEntry) (e : QJsonValue) : Bool :=
  (QJsonObject.value e.toObject "type").toString == "node" &&
    (whitelist.isEmpty ||
      whitelist.any (entryMatches (QJsonObject.value e.toObject "tags").toObject))

/-- Section 4.2, the mapping to a NormalizedPoi: coordinates and tags copied,
the name taken from the tag `name` when there is one. -/
def normalizedPoi (e : QJsonValue) : QJsonValue :=
  let tags := (QJsonObject.value e.toObject "tags").toObject
  .object [
    ("lat", .double (QJsonObject.value e.toObject "lat").toDouble),
    ("lon", .double (QJsonObject.value e.toObject "lon").toDouble),
    ("name", if QJsonObject.contains tags "name"
      then .string (QJsonObject.value tags "name").toString else .null),
    ("tags", .object tags)]

/-! ## The query text as the specification words it (section 4.1) -/

/-- The search area of a clause: all nodes within the radius of the centre, the
radius in decimal and the coordinates in fixed-point form with six decimals. -/
def aroundNode (number : Double → Char → Nat → String) (lat lon : Double)
    (radiusMeters : Int) : String :=
  "node(around:" ++ toString radiusMeters ++ "," ++ number lat 'f' 6 ++ ","
    ++ number lon 'f' 6 ++ ")"

/-- The clause of one whitelist entry: the tag must be set when the entry's
value is empty, and must have the entry's value otherwise. -/
def entryClause (around : String) (w : PoiWhitelistEntry) : String :=
  if w.value = "" then around ++ "[\"" ++ w.key ++ "\"];"
  else around ++ "[\"" ++ w.key ++ "\"=\"" ++ w.value ++ "\"];"

/-- The texts of a list written one after the other. -/
def concatAll : List String → String
  | [] => ""
  | text :: rest => text ++ concatAll rest

/-- The clauses between the opening and the closing of the query: all nodes of
the area for the empty whitelist, one clause per entry in whitelist order
otherwise. -/
def queryBody (around : String) (whitelist : List PoiWhitelistEntry) : String :=
  match whitelist with
  | [] => around ++ ";"
  | _ :: _ => concatAll (whitelist.map (entryClause around))

/-- A fixed-point rendering of a number for the examples: the magnitude is
rounded to `precision` decimals, halves upwards, and written with all its
decimals after the sign. -/
def fixedNumber (x : Double) (_format : Char) (precision : Nat) : String :=
  let m : Nat := (2 * x.num.natAbs * 10 ^ precision + x.den) / (2 * x.den)
  let whole := toString (m / 10 ^ precision)
  let frac := toString (m % 10 ^ precision)
  let zeros := String.mk (List.replicate (precision - frac.length) '0')
  (if x.num < 0 then "-" else "") ++ whole ++ "." ++ zeros ++ frac

/-! ## The requests and an example world -/

/-- The failure value of section 3: not ok, with an error message and no document. -/
def failure (message : String) : PoiResult :=
  { ok := false, error := message }

/-- The success value of section 3: ok, with the document and no error message. -/
def success (document : QJsonObject) : PoiResult :=
  { ok := true, json := document }

/-- The request that `geocodeAddress_` hands to the network: the search URL with
the parameters `q`, `format` and `limit`, and the client identification. -/
def geocodeRequest (address : String) : QNetworkRequest :=
  { url := "https://nominatim.openstreetmap.org/search",
    queryItems := [("q", address), ("format", "json"), ("limit", "1")],
    headers := [("User-Agent", userAgent)] }

/-- The request that `queryOverpass_` hands to the network. -/
def overpassRequest : QNetworkRequest :=
  { url := "https://overpass-api.de/api/interpreter",
    queryItems := [],
    headers := [("Content-Type", "application/x-www-form-urlencoded"),
      ("User-Agent", userAgent)] }

/-- A world for the examples: the geocoder answers every request with the body
`[]`, which parses to the empty array; no other body parses. -/
def emptyGeocoder : Qt :=
  { number := fixedNumber,
    toDouble := fun _ => (0, false),
    fromJson := fun data =>
      if data = "[]" then { failed := false, errorString := "no error occurred", doc := .array [] }
      else { failed := true, errorString := "illegal value", doc := .null },
    toPercentEncoding := fun text => text,
    currentDateTimeUtc := "2026-02-15T12:00:00Z",
    getReply := fun _ => { failed := false, errorString := "Unknown error", data := "[]" },
    postReply := fun _ _ => { failed := true, errorString := "Connection refused", data := "" } }

/-! # Properties -/

/-! ## Looking into the result document -/

theorem resultPois_buildResultJson_ (ts : String) (la lo : Double) (r : Int)
    (W : List PoiWhitelistEntry) (els : QJsonArray) (qi : QJsonObject) :
    resultPois (buildResultJson_ ts la lo r W els qi) = poisLoop W els [] := by
  simp [resultPois, buildResultJson_, QJsonObject.insert, QJsonObject.value,
    QJsonValue.toObject, QJsonValue.toArray]

theorem resultCount_buildResultJson_ (ts : String) (la lo : Double) (r : Int)
    (W : List PoiWhitelistEntry) (els : QJsonArray) (qi : QJsonObject) :
    resultCount (buildResultJson_ ts la lo r W els qi)
      = .double ((poisLoop W els []).length : Nat) := by
  simp [resultCount, buildResultJson_, QJsonObject.insert, QJsonObject.value,
    QJsonValue.toObject]

/-! ## The two loops of the normaliser -/

theorem isEmpty_eq_beq (s : String) : s.isEmpty = (s == "") := by
  rw [Bool.eq_iff_iff, String.isEmpty_iff, beq_iff_eq]

theorem whitelistLoop_step (tags : QJsonObject) (w : PoiWhitelistEntry) :
    (!(QJsonObject.value tags w.key).toString.isEmpty &&
      (w.value.isEmpty || (QJsonObject.value tags w.key).toString == w.value))
      = entryMatches tags w := by
  simp only [entryMatches, isEmpty_eq_beq, bne]

theorem whitelistLoop_eq (tags : QJsonObject) (W : List PoiWhitelistEntry) (acc : Bool) :
    whitelistLoop tags W acc = (W.any (entryMatches tags) || acc) := by
  induction W with
  | nil => simp [whitelistLoop]
  | cons w rest ih =>
    simp only [whitelistLoop, List.any_cons, whitelistLoop_step, ih]
    cases entryMatches tags w <;> simp

theorem poisLoop_eq (W : List PoiWhitelistEntry) (els : QJsonArray) (acc : QJsonArray) :
    poisLoop W els acc = acc ++ (els.filter (acceptsElement W)).map normalizedPoi := by
  induction els generalizing acc with
  | nil => simp [poisLoop]
  | cons e rest ih =>
    simp only [poisLoop, whitelistLoop_eq, ih]
    by_cases hn : (QJsonObject.value e.toObject "type").toString = "node"
    · by_cases hw : W.isEmpty = true
      · have ha : acceptsElement W e = true := by simp [acceptsElement, hn, hw]
        simp [hn, hw, ha, List.filter_cons, normalizedPoi, QJsonObject.insert]
        split <;> simp [QJsonObject.insert]
      · by_cases hm : W.any (entryMatches (QJsonObject.value e.toObject "tags").toObject) = true
        · have ha : acceptsElement W e = true := by simp [acceptsElement, hn, hm]
          simp [hn, hw, hm, ha, List.filter_cons, normalizedPoi, QJsonObject.insert]
          split <;> simp [QJsonObject.insert]
        · have ha : acceptsElement W e = false := by
            simp [acceptsElement, hn, hm, hw]
          simp [hn, hw, hm, ha, List.filter_cons]
    · have ha : acceptsElement W e = false := by simp [acceptsElement, hn]
      simp [hn, ha, List.filter_cons]

theorem resultPois_eq (ts : String) (la lo : Double) (r : Int)
    (W : List PoiWhitelistEntry) (els : QJsonArray) (qi : QJsonObject) :
    resultPois (buildResultJson_ ts la lo r W els qi)
      = (els.filter (acceptsElement W)).map normalizedPoi := by
  rw [resultPois_buildResultJson_, poisLoop_eq, List.nil_append]

theorem toObject_object (o : QJsonObject) : (QJsonValue.object o).toObject = o := rfl

theorem accepted_of_emitted (ts : String) (la lo : Double) (r : Int)
    (W : List PoiWhitelistEntry) (e : QJsonValue) (qi : QJsonObject)
    (h : resultPois (buildResultJson_ ts la lo r W [e] qi) ≠ []) :
    acceptsElement W e = true := by
  rw [resultPois_eq] at h
  cases ha : acceptsElement W e
  · simp [List.filter_cons, ha] at h
  · rfl

theorem filter_map_eq_bind (accept : QJsonValue → Bool) (f : QJsonValue → QJsonValue)
    (els : QJsonArray) :
    (els.filter accept).map f = els.flatMap (fun e => ([e].filter accept).map f) := by
  induction els with
  | nil => rfl
  | cons e rest ih =>
    rw [List.flatMap_cons, ← ih]
    cases h : accept e <;> simp [List.filter_cons, h]

/-! ## Keys and values of an object -/

theorem value_of_contains_false (o : QJsonObject) (k : String)
    (h : QJsonObject.contains o k = false) : QJsonObject.value o k = .undefined := by
  induction o with
  | nil => rfl
  | cons kv rest ih =>
    obtain ⟨k1, v1⟩ := kv
    by_cases hk : k1 = k
    · simp [QJsonObject.contains, hk] at h
    · simp only [QJsonObject.contains, hk, if_false] at h
      simp [QJsonObject.value, hk, ih h]

theorem mem_of_contains (o : QJsonObject) (k : String)
    (h : QJsonObject.contains o k = true) : (k, QJsonObject.value o k) ∈ o := by
  induction o with
  | nil => simp [QJsonObject.contains] at h
  | cons kv rest ih =>
    obtain ⟨k1, v1⟩ := kv
    by_cases hk : k1 = k
    · simp [QJsonObject.value, hk]
    · simp only [QJsonObject.contains, hk, if_false] at h
      simp [QJsonObject.value, hk, ih h]

theorem toString_eq_iff (v : QJsonValue) (s : String) (hs : s ≠ "") :
    v.toString = s ↔ v = .string s := by
  cases v <;> simp [QJsonValue.toString, Ne.symm hs]

theorem isNode_iff (e : QJsonValue) :
    ((QJsonObject.value e.toObject "type").toString == "node") = true ↔
      QJsonObject.value e.toObject "type" = .string "node" := by
  rw [beq_iff_eq]
  exact toString_eq_iff _ _ (by decide)

theorem entryMatches_iff (tags : QJsonObject) (w : PoiWhitelistEntry)
    (htags : ∀ k v, (k, v) ∈ tags → ∃ s, v = QJsonValue.string s) :
    entryMatches tags w = true ↔
      ∃ v, QJsonObject.contains tags w.key = true ∧ QJsonObject.value tags w.key = v ∧
        v ≠ .string "" ∧ (w.value = "" ∨ v = .string w.value) := by
  simp only [entryMatches, bne_iff_ne, ne_eq, Bool.and_eq_true, Bool.or_eq_true,
    beq_iff_eq, decide_eq_true_eq]
  constructor
  · rintro ⟨hne, hval⟩
    have hc : QJsonObject.contains tags w.key = true := by
      by_contra hc
      rw [Bool.not_eq_true] at hc
      rw [value_of_contains_false _ _ hc] at hne
      exact hne rfl
    obtain ⟨s, hs⟩ := htags _ _ (mem_of_contains _ _ hc)
    rw [hs] at hne hval ⊢
    refine ⟨_, hc, rfl, ?_, ?_⟩
    · intro h
      injection h with h
      exact hne h
    · rcases hval with h | h
      · exact Or.inl h
      · exact Or.inr (by rw [show (QJsonValue.string s).toString = s from rfl] at h; rw [h])
  · rintro ⟨v, hc, hv, hne, hval⟩
    obtain ⟨s, hs⟩ := htags _ _ (mem_of_contains _ _ hc)
    rw [hv] at hs
    subst hs
    rw [hv]
    refine ⟨?_, ?_⟩
    · intro h
      apply hne
      rw [show (QJsonValue.string s).toString = s from rfl] at h
      rw [h]
    · rcases hval with h | h
      · exact Or.inl h
      · right
        injection h

theorem acceptsElement_iff (W : List PoiWhitelistEntry) (e : QJsonValue)
    (htags : ∀ k v, (k, v) ∈ (QJsonObject.value e.toObject "tags").toObject →
      ∃ s, v = QJsonValue.string s) :
    acceptsElement W e = true ↔
      (QJsonObject.value e.toObject "type" = .string "node" ∧
        (W = [] ∨ ∃ w ∈ W, ∃ v,
          QJsonObject.contains (QJsonObject.value e.toObject "tags").toObject w.key = true ∧
          QJsonObject.value (QJsonObject.value e.toObject "tags").toObject w.key = v ∧
          v ≠ .string "" ∧ (w.value = "" ∨ v = .string w.value))) := by
  unfold acceptsElement
  rw [Bool.and_eq_true, isNode_iff, Bool.or_eq_true, List.isEmpty_iff, List.any_eq_true]
  constructor
  · rintro ⟨h1, h2⟩
    refine ⟨h1, ?_⟩
    rcases h2 with h2 | ⟨w, hw, hm⟩
    · exact Or.inl h2
    · exact Or.inr ⟨w, hw, (entryMatches_iff _ w htags).mp hm⟩
  · rintro ⟨h1, h2⟩
    refine ⟨h1, ?_⟩
    rcases h2 with h2 | ⟨w, hw, hm⟩
    · exact Or.inl h2
    · exact Or.inr ⟨w, hw, (entryMatches_iff _ w htags).mpr hm⟩

theorem acceptsElement_perm (W W2 : List PoiWhitelistEntry) (h : W.Perm W2) :
    acceptsElement W = acceptsElement W2 := by
  funext e
  have h1 : W.isEmpty = W2.isEmpty := by
    rw [Bool.eq_iff_iff, List.isEmpty_iff, List.isEmpty_iff]
    exact ⟨fun h0 => by subst h0; exact h.nil_eq.symm, fun h0 => by subst h0; exact h.eq_nil⟩
  have h2 : ∀ f : PoiWhitelistEntry → Bool, W.any f = W2.any f := by
    intro f
    rw [Bool.eq_iff_iff, List.any_eq_true, List.any_eq_true]
    exact ⟨fun ⟨w, hw, hf⟩ => ⟨w, h.mem_iff.mp hw, hf⟩, fun ⟨w, hw, hf⟩ => ⟨w, h.mem_iff.mpr hw, hf⟩⟩
  simp only [acceptsElement, h1, h2]

/-! ## Place markers: text without a percent sign is passed over -/

theorem scanEscapes_text_append (p t : List Char) (hp : '%' ∉ p) :
    scanEscapes .idle (p ++ t) = p.map ArgPiece.text ++ scanEscapes .idle t := by
  induction p with
  | nil => rfl
  | cons c rest ih =>
    have hc : c ≠ '%' := fun h => hp (by simp [h])
    have hrest : '%' ∉ rest := fun h => hp (List.mem_cons_of_mem _ h)
    simp [scanEscapes, hc, ih hrest]

theorem minEscape_text_append (lo : Nat) (p : List Char) (ps : List ArgPiece) :
    minEscape lo (p.map ArgPiece.text ++ ps) = minEscape lo ps := by
  induction p with
  | nil => rfl
  | cons c rest ih => simpa [minEscape] using ih

theorem replaceArgEscapes_text_append (m1 : Nat) (a1 : List Char) (m2 : Option Nat)
    (a2 : List Char) (p : List Char) (ps : List ArgPiece) :
    replaceArgEscapes m1 a1 m2 a2 (p.map ArgPiece.text ++ ps)
      = p ++ replaceArgEscapes m1 a1 m2 a2 ps := by
  induction p with
  | nil => rfl
  | cons c rest ih => simpa [replaceArgEscapes] using ih

theorem arg_text_append (p t a : String) (hp : '%' ∉ p.data) :
    QString.arg (p ++ t) a = p ++ QString.arg t a := by
  simp only [QString.arg, String.data_append, scanEscapes_text_append _ _ hp,
    minEscape_text_append, replaceArgEscapes_text_append]
  cases minEscape 0 (scanEscapes .idle t.data) with
  | none => rfl
  | some m => exact String.ext (by simp)

theorem arg2_text_append (p t a1 a2 : String) (hp : '%' ∉ p.data) :
    QString.arg2 (p ++ t) a1 a2 = p ++ QString.arg2 t a1 a2 := by
  simp only [QString.arg2, String.data_append, scanEscapes_text_append _ _ hp,
    minEscape_text_append, replaceArgEscapes_text_append]
  cases minEscape 0 (scanEscapes .idle t.data) with
  | none => rfl
  | some m => exact String.ext (by simp)

/-! ## The decimal rendering of an integer has no percent sign -/

theorem ite_ne_of_ne {c : Prop} [Decidable c] {a b x : Char} (ha : a ≠ x) (hb : b ≠ x) :
    (if c then a else b) ≠ x := by
  by_cases h : c <;> simp [h, ha, hb]

theorem digitChar_ne_percent (n : Nat) : Nat.digitChar n ≠ '%' := by
  unfold Nat.digitChar
  repeat (refine ite_ne_of_ne (by decide) ?_)
  decide

theorem toDigitsCore_no_percent (b fuel n : Nat) (ds : List Char) (hds : '%' ∉ ds) :
    '%' ∉ Nat.toDigitsCore b fuel n ds := by
  induction fuel generalizing n ds with
  | zero => simpa [Nat.toDigitsCore] using hds
  | succ f ih =>
    have hcons : '%' ∉ Nat.digitChar (n % b) :: ds := by
      intro h
      rcases List.mem_cons.mp h with h | h
      · exact digitChar_ne_percent _ h.symm
      · exact hds h
    rw [Nat.toDigitsCore]
    split_ifs
    · exact hcons
    · exact ih _ _ hcons

theorem nat_toString_no_percent (n : Nat) : '%' ∉ (toString n).data := by
  show '%' ∉ Nat.toDigitsCore 10 (n + 1) n []
  exact toDigitsCore_no_percent _ _ _ _ (by simp)

theorem int_toString_no_percent (n : Int) : '%' ∉ (toString n).data := by
  cases n with
  | ofNat m => exact nat_toString_no_percent m
  | negSucc m =>
    show '%' ∉ ("-" ++ toString (Nat.succ m)).data
    rw [String.data_append]
    intro h
    rcases List.mem_append.mp h with h | h
    · revert h; decide
    · exact nat_toString_no_percent _ h

/-! ## The closed form of the query text -/

theorem no_percent_append (a b : String) (ha : '%' ∉ a.data) (hb : '%' ∉ b.data) :
    '%' ∉ (a ++ b).data := by
  rw [String.data_append]
  exact fun h => (List.mem_append.mp h).elim ha hb

theorem clause_all_nodes (number : Double → Char → Nat → String) (lat lon : Double) (r : Int)
    (hnum : ∀ x, '%' ∉ (number x 'f' 6).data) :
    QString.argDouble number (QString.argDouble number
        (QString.argInt "node(around:%1,%2,%3);" r) lat 'f' 6) lon 'f' 6
      = aroundNode number lat lon r ++ ";" := by
  have hc : '%' ∉ ("," : String).data := by decide
  have h1 := no_percent_append _ _ (show '%' ∉ ("node(around:" : String).data by decide)
    (int_toString_no_percent r)
  have h2 := no_percent_append _ _ (no_percent_append _ _ h1 hc) (hnum lat)
  have s1 : QString.argInt "node(around:%1,%2,%3);" r
      = "node(around:" ++ toString r ++ ",%2,%3);" := rfl
  have s2 : QString.arg ",%2,%3);" (number lat 'f' 6)
      = "," ++ number lat 'f' 6 ++ ",%3);" := rfl
  have s3 : QString.arg ",%3);" (number lon 'f' 6)
      = "," ++ number lon 'f' 6 ++ ");" := rfl
  simp only [QString.argDouble, s1]
  rw [arg_text_append _ _ _ h1, s2, ← String.append_assoc, ← String.append_assoc,
    arg_text_append _ _ _ h2, s3]
  simp only [aroundNode, String.append_assoc]
  rfl

theorem clause_key (number : Double → Char → Nat → String) (lat lon : Double) (r : Int)
    (key : String) (hnum : ∀ x, '%' ∉ (number x 'f' 6).data) :
    QString.arg (QString.argDouble number (QString.argDouble number
        (QString.argInt "node(around:%1,%2,%3)[\"%4\"];" r) lat 'f' 6) lon 'f' 6) key
      = aroundNode number lat lon r ++ "[\"" ++ key ++ "\"];" := by
  have hc : '%' ∉ ("," : String).data := by decide
  have h1 := no_percent_append _ _ (show '%' ∉ ("node(around:" : String).data by decide)
    (int_toString_no_percent r)
  have h2 := no_percent_append _ _ (no_percent_append _ _ h1 hc) (hnum lat)
  have h3 := no_percent_append _ _ (no_percent_append _ _ h2 hc) (hnum lon)
  have s1 : QString.argInt "node(around:%1,%2,%3)[\"%4\"];" r
      = "node(around:" ++ toString r ++ ",%2,%3)[\"%4\"];" := rfl
  have s2 : QString.arg ",%2,%3)[\"%4\"];" (number lat 'f' 6)
      = "," ++ number lat 'f' 6 ++ ",%3)[\"%4\"];" := rfl
  have s3 : QString.arg ",%3)[\"%4\"];" (number lon 'f' 6)
      = "," ++ number lon 'f' 6 ++ ")[\"%4\"];" := rfl
  have s4 : QString.arg ")[\"%4\"];" key = ")[\"" ++ key ++ "\"];" := rfl
  simp only [QString.argDouble, s1]
  rw [arg_text_append _ _ _ h1, s2, ← String.append_assoc, ← String.append_assoc,
    arg_text_append _ _ _ h2, s3, ← String.append_assoc, ← String.append_assoc,
    arg_text_append _ _ _ h3, s4]
  simp only [aroundNode, String.append_assoc]
  rfl

theorem clause_key_value (number : Double → Char → Nat → String) (lat lon : Double) (r : Int)
    (key value : String) (hnum : ∀ x, '%' ∉ (number x 'f' 6).data) :
    QString.arg2 (QString.argDouble number (QString.argDouble number
        (QString.argInt "node(around:%1,%2,%3)[\"%4\"=\"%5\"];" r) lat 'f' 6) lon 'f' 6) key value
      = aroundNode number lat lon r ++ "[\"" ++ key ++ "\"=\"" ++ value ++ "\"];" := by
  have hc : '%' ∉ ("," : String).data := by decide
  have h1 := no_percent_append _ _ (show '%' ∉ ("node(around:" : String).data by decide)
    (int_toString_no_percent r)
  have h2 := no_percent_append _ _ (no_percent_append _ _ h1 hc) (hnum lat)
  have h3 := no_percent_append _ _ (no_percent_append _ _ h2 hc) (hnum lon)
  have s1 : QString.argInt "node(around:%1,%2,%3)[\"%4\"=\"%5\"];" r
      = "node(around:" ++ toString r ++ ",%2,%3)[\"%4\"=\"%5\"];" := rfl
  have s2 : QString.arg ",%2,%3)[\"%4\"=\"%5\"];" (number lat 'f' 6)
      = "," ++ number lat 'f' 6 ++ ",%3)[\"%4\"=\"%5\"];" := rfl
  have s3 : QString.arg ",%3)[\"%4\"=\"%5\"];" (number lon 'f' 6)
      = "," ++ number lon 'f' 6 ++ ")[\"%4\"=\"%5\"];" := rfl
  have s4 : QString.arg2 ")[\"%4\"=\"%5\"];" key value
      = ")[\"" ++ (key ++ ("\"=\"" ++ (value ++ "\"];"))) := rfl
  simp only [QString.argDouble, s1]
  rw [arg_text_append _ _ _ h1, s2, ← String.append_assoc, ← String.append_assoc,
    arg_text_append _ _ _ h2, s3, ← String.append_assoc, ← String.append_assoc,
    arg2_text_append _ _ _ _ h3, s4]
  simp only [aroundNode, String.append_assoc]
  rfl

theorem concatAll_append (l1 l2 : List String) :
    concatAll (l1 ++ l2) = concatAll l1 ++ concatAll l2 := by
  induction l1 with
  | nil => simp [concatAll]
  | cons x xs ih => simp [concatAll, ih, String.append_assoc]

theorem overpassClauseLoop_eq (number : Double → Char → Nat → String) (lat lon : Double)
    (r : Int) (hnum : ∀ x, '%' ∉ (number x 'f' 6).data) (W : List PoiWhitelistEntry)
    (query : String) :
    overpassClauseLoop number lat lon r W query
      = query ++ concatAll (W.map (entryClause (aroundNode number lat lon r))) := by
  induction W generalizing query with
  | nil => simp [overpassClauseLoop, concatAll]
  | cons w rest ih =>
    by_cases hv : w.value = ""
    · have he : w.value.isEmpty = true := (String.isEmpty_iff _).mpr hv
      simp only [overpassClauseLoop, he, if_true, clause_key _ _ _ _ _ hnum, ih]
      simp only [List.map_cons, concatAll, entryClause, hv, if_true, String.append_assoc]
    · have he : ¬ w.value.isEmpty = true := fun h => hv ((String.isEmpty_iff _).mp h)
      simp only [overpassClauseLoop, he, if_false, clause_key_value _ _ _ _ _ _ hnum, ih]
      simp only [List.map_cons, concatAll, entryClause, hv, if_false, String.append_assoc,
        Bool.false_eq_true]

theorem buildOverpassQuery_eq (number : Double → Char → Nat → String) (lat lon : Double)
    (r : Int) (hnum : ∀ x, '%' ∉ (number x 'f' 6).data) (W : List PoiWhitelistEntry) :
    buildOverpassQuery_ number lat lon r W
      = "[out:json][timeout:25];(" ++ queryBody (aroundNode number lat lon r) W
          ++ ");out center;" := by
  cases W with
  | nil =>
    simp only [buildOverpassQuery_, List.isEmpty_nil, if_true, clause_all_nodes _ _ _ _ hnum,
      queryBody]
  | cons w rest =>
    simp only [buildOverpassQuery_, List.isEmpty_cons, overpassClauseLoop_eq _ _ _ _ hnum,
      queryBody]
    simp

theorem queryBody_append (around : String) (W1 W2 : List PoiWhitelistEntry)
    (h1 : W1 ≠ []) (h2 : W2 ≠ []) :
    queryBody around (W1 ++ W2) = queryBody around W1 ++ queryBody around W2 := by
  cases W1 with
  | nil => exact absurd rfl h1
  | cons w1 r1 =>
    cases W2 with
    | nil => exact absurd rfl h2
    | cons w2 r2 =>
      simp only [queryBody, List.cons_append]
      rw [← List.cons_append, List.map_append, concatAll_append]

theorem fixedNumber_no_percent (x : Double) (format : Char) (precision : Nat) :
    '%' ∉ (fixedNumber x format precision).data := by
  unfold fixedNumber
  refine no_percent_append _ _ (no_percent_append _ _ (no_percent_append _ _
    (no_percent_append _ _ ?_ (nat_toString_no_percent _)) (by decide)) ?_)
    (nat_toString_no_percent _)
  · split <;> decide
  · intro h
    exact absurd (List.eq_of_mem_replicate h) (by decide)

/-! ## The completion handlers -/

theorem arg_last_marker (lead a : String) (h : '%' ∉ lead.data) :
    QString.arg (lead ++ "%1") a = lead ++ a := by
  rw [arg_text_append _ _ _ h, show QString.arg "%1" a = "" ++ a ++ "" from rfl]
  simp

theorem geocoding_error_text (a : String) :
    QString.arg "Geocoding error: %1" a = "Geocoding error: " ++ a :=
  arg_last_marker "Geocoding error: " a (by decide)

theorem geocoding_json_text (a : String) :
    QString.arg "Invalid geocoding JSON: %1" a = "Invalid geocoding JSON: " ++ a :=
  arg_last_marker "Invalid geocoding JSON: " a (by decide)

theorem overpassFinished_single (qt : Qt) (reply : QNetworkReply) (lat lon : Double) (r : Int)
    (W : List PoiWhitelistEntry) (qi : QJsonObject) :
    ∃ res, overpassFinished qt reply lat lon r W qi = [.finished res] := by
  unfold overpassFinished
  by_cases h1 : reply.failed = true
  · simp only [h1, if_true]
    exact ⟨_, rfl⟩
  · by_cases h2 : ((qt.fromJson reply.data).failed ||
        !(qt.fromJson reply.data).doc.isObject) = true
    · simp only [h1, h2, if_true, if_false]
      exact ⟨_, rfl⟩
    · simp only [h1, h2, if_false]
      exact ⟨_, rfl⟩

theorem queryOverpass_eq (qt : Qt) (lat lon : Double) (r : Int)
    (W : List PoiWhitelistEntry) (qi : QJsonObject) :
    queryOverpass_ qt lat lon r W qi
      = .post overpassRequest
          ("data=" ++ qt.toPercentEncoding (buildOverpassQuery_ qt.number lat lon r W)) ::
        overpassFinished qt (qt.postReply overpassRequest
          ("data=" ++ qt.toPercentEncoding (buildOverpassQuery_ qt.number lat lon r W)))
          lat lon r W qi :=
  rfl

theorem queryOverpass_shape (qt : Qt) (lat lon : Double) (r : Int)
    (W : List PoiWhitelistEntry) (qi : QJsonObject) :
    ∃ body res, queryOverpass_ qt lat lon r W qi
      = [.post overpassRequest body, .finished res] := by
  obtain ⟨res, h⟩ := overpassFinished_single qt
    (qt.postReply overpassRequest
      ("data=" ++ qt.toPercentEncoding (buildOverpassQuery_ qt.number lat lon r W)))
    lat lon r W qi
  exact ⟨_, res, by rw [queryOverpass_eq, h]⟩

theorem geocodeAddress_eq (qt : Qt) (address : String) (r : Int)
    (W : List PoiWhitelistEntry) :
    geocodeAddress_ qt address r W
      = .get (geocodeRequest address) ::
        geocodeFinished qt (qt.getReply (geocodeRequest address)) address r W :=
  rfl

theorem geocodeFinished_shape (qt : Qt) (reply : QNetworkReply) (address : String) (r : Int)
    (W : List PoiWhitelistEntry) :
    (∃ res, geocodeFinished qt reply address r W = [.finished res]) ∨
      ∃ body res, geocodeFinished qt reply address r W
        = [.post overpassRequest body, .finished res] := by
  unfold geocodeFinished
  cases h1 : reply.failed
  · cases h2 : ((qt.fromJson reply.data).failed || !(qt.fromJson reply.data).doc.isArray)
    · cases h3 : (qt.fromJson reply.data).doc.toArray.isEmpty
      · simp only [h2, h3, Bool.false_eq_true, if_false]
        split
        · exact Or.inl ⟨_, rfl⟩
        · exact Or.inr (queryOverpass_shape _ _ _ _ _ _)
      · simp only [h2, h3, Bool.false_eq_true, if_false, if_true]
        exact Or.inl ⟨_, rfl⟩
    · simp only [h2, Bool.false_eq_true, if_false, if_true]
      exact Or.inl ⟨_, rfl⟩
  · simp only [if_true]
    exact Or.inl ⟨_, rfl⟩

theorem toDouble_not_ok (qt : Qt) (hempty : (qt.toDouble "").2 = false)
    (v : QJsonValue) (h : ¬ ∃ s, v = .string s ∧ (qt.toDouble s).2 = true) :
    (qt.toDouble v.toString).2 = false := by
  cases v with
  | string s =>
    rw [← Bool.not_eq_true]
    exact fun hd => h ⟨s, rfl, hd⟩
  | _ => exact hempty

theorem geocodeFinished_transport (qt : Qt) (reply : QNetworkReply) (address : String)
    (r : Int) (W : List PoiWhitelistEntry) (h : reply.failed = true) :
    geocodeFinished qt reply address r W
      = [.finished (failure ("Geocoding error: " ++ reply.errorString))] := by
  unfold geocodeFinished failure
  simp only [h, if_true, geocoding_error_text]

theorem geocodeFinished_json (qt : Qt) (reply : QNetworkReply) (address : String)
    (r : Int) (W : List PoiWhitelistEntry) (h : reply.failed = false)
    (hp : (qt.fromJson reply.data).failed = true ∨
      (qt.fromJson reply.data).doc.isArray = false) :
    geocodeFinished qt reply address r W
      = [.finished (failure
          ("Invalid geocoding JSON: " ++ (qt.fromJson reply.data).errorString))] := by
  have hc : ((qt.fromJson reply.data).failed || !(qt.fromJson reply.data).doc.isArray) = true := by
    rcases hp with hp | hp <;> simp [hp]
  unfold geocodeFinished failure
  simp only [h, hc, Bool.false_eq_true, if_false, if_true, geocoding_json_text]

theorem geocodeFinished_empty (qt : Qt) (reply : QNetworkReply) (address : String)
    (r : Int) (W : List PoiWhitelistEntry) (h : reply.failed = false)
    (hp : (qt.fromJson reply.data).failed = false)
    (hd : (qt.fromJson reply.data).doc = .array []) :
    geocodeFinished qt reply address r W
      = [.finished (failure "No geocoding result for address")] := by
  unfold geocodeFinished failure
  simp [h, hp, hd, QJsonValue.isArray, QJsonValue.toArray]

theorem geocodeFinished_coordinates (qt : Qt) (hempty : (qt.toDouble "").2 = false)
    (reply : QNetworkReply) (address : String) (r : Int) (W : List PoiWhitelistEntry)
    (h : reply.failed = false) (hp : (qt.fromJson reply.data).failed = false)
    (first : QJsonValue) (rest : QJsonArray)
    (hd : (qt.fromJson reply.data).doc = .array (first :: rest))
    (hbad : (¬ ∃ s, QJsonObject.value first.toObject "lat" = .string s ∧
        (qt.toDouble s).2 = true) ∨
      (¬ ∃ s, QJsonObject.value first.toObject "lon" = .string s ∧
        (qt.toDouble s).2 = true)) :
    geocodeFinished qt reply address r W
      = [.finished (failure "Invalid coordinates in geocoding response")] := by
  unfold geocodeFinished failure
  simp only [h, hp, hd, QJsonValue.isArray, QJsonValue.toArray, Bool.false_eq_true, if_false,
    Bool.or_self, Bool.not_true, List.isEmpty_cons, List.head?_cons, Option.getD_some]
  rcases hbad with hbad | hbad
  · simp [toDouble_not_ok qt hempty _ hbad]
  · simp [toDouble_not_ok qt hempty _ hbad]

/-! ## The claims about the query text -/

/-- C5: the query text is the opening `[out:json][timeout:25];(`, the body and
the closing `);out center;`. With A the area `node(around:R,LAT,LON)`, the body
is the clause `A;` for the empty whitelist and otherwise one clause per entry in
whitelist order, `A["key"];` for an entry with empty value and
`A["key"="value"];` for one with a value; hence the body of the concatenation of
two non-empty whitelists is the concatenation of their bodies. -/
theorem C5_query_text (number : Double → Char → Nat → String) (lat lon : Double) (r : Int)
    (W : List PoiWhitelistEntry) (hnum : ∀ x, '%' ∉ (number x 'f' 6).data) :
    buildOverpassQuery_ number lat lon r W
        = "[out:json][timeout:25];(" ++ queryBody (aroundNode number lat lon r) W
            ++ ");out center;" ∧
      aroundNode number lat lon r
        = "node(around:" ++ toString r ++ "," ++ number lat 'f' 6 ++ ","
            ++ number lon 'f' 6 ++ ")" ∧
      queryBody (aroundNode number lat lon r) [] = aroundNode number lat lon r ++ ";" ∧
      (∀ (w : PoiWhitelistEntry) (rest : List PoiWhitelistEntry),
        queryBody (aroundNode number lat lon r) (w :: rest)
          = entryClause (aroundNode number lat lon r) w
              ++ concatAll (rest.map (entryClause (aroundNode number lat lon r)))) ∧
      (∀ w : PoiWhitelistEntry, w.value = "" →
        entryClause (aroundNode number lat lon r) w
          = aroundNode number lat lon r ++ "[\"" ++ w.key ++ "\"];") ∧
      (∀ w : PoiWhitelistEntry, w.value ≠ "" →
        entryClause (aroundNode number lat lon r) w
          = aroundNode number lat lon r ++ "[\"" ++ w.key ++ "\"=\"" ++ w.value ++ "\"];") ∧
      ∀ W1 W2 : List PoiWhitelistEntry, W1 ≠ [] → W2 ≠ [] →
        queryBody (aroundNode number lat lon r) (W1 ++ W2)
          = queryBody (aroundNode number lat lon r) W1
              ++ queryBody (aroundNode number lat lon r) W2 := by
  refine ⟨buildOverpassQuery_eq number lat lon r hnum W, rfl, rfl, fun w rest => rfl, ?_, ?_,
    fun W1 W2 h1 h2 => queryBody_append _ W1 W2 h1 h2⟩
  · intro w hw
    simp only [entryClause, hw, if_true]
  · intro w hw
    simp only [entryClause, hw, if_false]

/-- C5 at the centre 37.4, -122.1 with radius 500 and the whitelist amenity (any
value), cuisine=italian: the whole query text. -/
theorem C5_query_text_witness :
    buildOverpassQuery_ fixedNumber 37.4 (-122.1) 500 [⟨"amenity", ""⟩, ⟨"cuisine", "italian"⟩]
      = "[out:json][timeout:25];(node(around:500,37.400000,-122.100000)[\"amenity\"];node(around:500,37.400000,-122.100000)[\"cuisine\"=\"italian\"];);out center;" := by
  have hlat : fixedNumber 37.4 'f' 6 = "37.400000" := by
    norm_num [fixedNumber]
    decide
  have hlon : fixedNumber (-122.1) 'f' 6 = "-122.100000" := by
    norm_num [fixedNumber]
    decide
  rw [(C5_query_text fixedNumber 37.4 (-122.1) 500 [⟨"amenity", ""⟩, ⟨"cuisine", "italian"⟩]
    (fun x => fixedNumber_no_percent x 'f' 6)).1]
  simp only [queryBody, aroundNode, hlat, hlon, entryClause, concatAll, List.map]
  decide

theorem ne_append_quoted (a b : String) : a ≠ a ++ "\"=\"" ++ b := by
  intro h
  have hl := congrArg String.length h
  simp only [String.length_append] at hl
  have h3 : ("\"=\"" : String).length = 3 := by decide
  omega

/-- C10: key and value are written into the query text as they are, so the
query text does not determine the whitelist. For a non-empty value b, the
whitelist with the single key a"="b and no value differs from the whitelist with
key a and value b, both give the same query text, with the clause A["a"="b"];,
and the normaliser tells them apart: under the first an element is accepted only
if it has a tag named a"="b, so a node tagged a=b is rejected, while under the
second that node is accepted. -/
theorem C10_query_text_not_injective (number : Double → Char → Nat → String)
    (lat lon : Double) (r : Int) (a b : String)
    (hnum : ∀ x, '%' ∉ (number x 'f' 6).data) (hb : b ≠ "") :
    ([⟨a ++ "\"=\"" ++ b, ""⟩] : List PoiWhitelistEntry) ≠ [⟨a, b⟩] ∧
    buildOverpassQuery_ number lat lon r [⟨a ++ "\"=\"" ++ b, ""⟩]
      = buildOverpassQuery_ number lat lon r [⟨a, b⟩] ∧
    buildOverpassQuery_ number lat lon r [⟨a, b⟩]
      = "[out:json][timeout:25];(" ++ aroundNode number lat lon r
          ++ "[\"" ++ a ++ "\"=\"" ++ b ++ "\"];" ++ ");out center;" ∧
    (∀ (ts : String) (la lo : Double) (rad : Int) (qi : QJsonObject) (e : QJsonValue),
      resultPois (buildResultJson_ ts la lo rad [⟨a ++ "\"=\"" ++ b, ""⟩] [e] qi) ≠ [] →
        QJsonObject.contains (QJsonObject.value e.toObject "tags").toObject
          (a ++ "\"=\"" ++ b) = true) ∧
    (∀ (ts : String) (la lo : Double) (rad : Int) (qi : QJsonObject),
      resultPois (buildResultJson_ ts la lo rad [⟨a ++ "\"=\"" ++ b, ""⟩]
        [.object [("type", .string "node"), ("tags", .object [(a, .string b)])]] qi) = [] ∧
      resultPois (buildResultJson_ ts la lo rad [⟨a, b⟩]
        [.object [("type", .string "node"), ("tags", .object [(a, .string b)])]] qi) ≠ []) := by
  refine ⟨?_, ?_, ?_, ?_, ?_⟩
  · intro h
    injection h with h1 _
    injection h1 with _ hv
    exact hb hv.symm
  · rw [buildOverpassQuery_eq _ _ _ _ hnum, buildOverpassQuery_eq _ _ _ _ hnum]
    simp only [queryBody, List.map, concatAll, entryClause, hb, if_false, if_true,
      String.append_assoc]
  · rw [buildOverpassQuery_eq _ _ _ _ hnum]
    simp only [queryBody, List.map, concatAll, entryClause, hb, if_false, String.append_assoc]
    simp
  · intro ts la lo rad qi e hne
    rw [resultPois_eq] at hne
    by_contra hc
    rw [Bool.not_eq_true] at hc
    apply hne
    have ha : acceptsElement [⟨a ++ "\"=\"" ++ b, ""⟩] e = false := by
      simp [acceptsElement, entryMatches, value_of_contains_false _ _ hc, QJsonValue.toString]
    simp [List.filter_cons, ha]
  · intro ts la lo rad qi
    have hne := ne_append_quoted a b
    refine ⟨?_, ?_⟩
    · rw [resultPois_eq]
      have ha : acceptsElement [⟨a ++ "\"=\"" ++ b, ""⟩]
          (.object [("type", .string "node"), ("tags", .object [(a, .string b)])]) = false := by
        simp [acceptsElement, entryMatches, QJsonObject.value, QJsonValue.toObject,
          QJsonValue.toString, hne]
      simp [List.filter_cons, ha]
    · rw [resultPois_eq]
      have ha : acceptsElement [⟨a, b⟩]
          (.object [("type", .string "node"), ("tags", .object [(a, .string b)])]) = true := by
        simp [acceptsElement, entryMatches, QJsonObject.value, QJsonValue.toObject,
          QJsonValue.toString, hb]
      simp [List.filter_cons, ha]

/-- C10 for a = "a" and b = "b" at the centre 37.4, -122.1 and radius 500: the
two whitelists give the same query text, and a node tagged a=b is rejected under
the first and accepted under the second. -/
theorem C10_query_text_not_injective_witness :
    buildOverpassQuery_ fixedNumber 37.4 (-122.1) 500 [⟨"a\"=\"b", ""⟩]
        = buildOverpassQuery_ fixedNumber 37.4 (-122.1) 500 [⟨"a", "b"⟩] ∧
      resultPois (buildResultJson_ "" 37.4 (-122.1) 500 [⟨"a\"=\"b", ""⟩]
        [.object [("type", .string "node"), ("tags", .object [("a", .string "b")])]] []) = [] ∧
      resultPois (buildResultJson_ "" 37.4 (-122.1) 500 [⟨"a", "b"⟩]
        [.object [("type", .string "node"), ("tags", .object [("a", .string "b")])]] []) ≠ [] :=
  have h := C10_query_text_not_injective fixedNumber 37.4 (-122.1) 500 "a" "b"
    (fun x => fixedNumber_no_percent x 'f' 6) (by decide)
  ⟨h.2.1, (h.2.2.2.2 "" 37.4 (-122.1) 500 []).1, (h.2.2.2.2 "" 37.4 (-122.1) 500 []).2⟩

/-! ## The claims about the network side -/

/-- C6: when the geocoding reply fails, `queryByAddress` issues the geocoding
request, delivers one result that is not ok and carries the geocoding message,
and issues no POI request. The checks come in this order: a transport error
gives "Geocoding error: " and the transport message; otherwise a body that does
not parse or is not an array gives "Invalid geocoding JSON: " and the parse
diagnostic; otherwise an empty array gives "No geocoding result for address";
otherwise a first element whose "lat" or "lon" is absent or is not a string that
parses as a number gives "Invalid coordinates in geocoding response". -/
theorem C6_geocoding_failures (qt : Qt) (address : String) (r : Int)
    (W : List PoiWhitelistEntry) (hempty : (qt.toDouble "").2 = false) :
    ((qt.getReply (geocodeRequest address)).failed = true →
      queryByAddress qt address r W = [.get (geocodeRequest address),
        .finished (failure ("Geocoding error: "
          ++ (qt.getReply (geocodeRequest address)).errorString))]) ∧
    ((qt.getReply (geocodeRequest address)).failed = false →
      ((qt.fromJson (qt.getReply (geocodeRequest address)).data).failed = true ∨
        (qt.fromJson (qt.getReply (geocodeRequest address)).data).doc.isArray = false) →
      queryByAddress qt address r W = [.get (geocodeRequest address),
        .finished (failure ("Invalid geocoding JSON: "
          ++ (qt.fromJson (qt.getReply (geocodeRequest address)).data).errorString))]) ∧
    ((qt.getReply (geocodeRequest address)).failed = false →
      (qt.fromJson (qt.getReply (geocodeRequest address)).data).failed = false →
      (qt.fromJson (qt.getReply (geocodeRequest address)).data).doc = .array [] →
      queryByAddress qt address r W = [.get (geocodeRequest address),
        .finished (failure "No geocoding result for address")]) ∧
    ((qt.getReply (geocodeRequest address)).failed = false →
      (qt.fromJson (qt.getReply (geocodeRequest address)).data).failed = false →
      ∀ (first : QJsonValue) (rest : QJsonArray),
      (qt.fromJson (qt.getReply (geocodeRequest address)).data).doc = .array (first :: rest) →
      ((¬ ∃ s, QJsonObject.value first.toObject "lat" = .string s ∧
          (qt.toDouble s).2 = true) ∨
        (¬ ∃ s, QJsonObject.value first.toObject "lon" = .string s ∧
          (qt.toDouble s).2 = true)) →
      queryByAddress qt address r W = [.get (geocodeRequest address),
        .finished (failure "Invalid coordinates in geocoding response")]) := by
  refine ⟨?_, ?_, ?_, ?_⟩
  · intro h
    rw [queryByAddress, geocodeAddress_eq, geocodeFinished_transport _ _ _ _ _ h]
  · intro h hp
    rw [queryByAddress, geocodeAddress_eq, geocodeFinished_json _ _ _ _ _ h hp]
  · intro h hp hd
    rw [queryByAddress, geocodeAddress_eq, geocodeFinished_empty _ _ _ _ _ h hp hd]
  · intro h hp first rest hd hbad
    rw [queryByAddress, geocodeAddress_eq,
      geocodeFinished_coordinates _ hempty _ _ _ _ h hp first rest hd hbad]

/-- C6 at the scenario of the specification: the address "1600 Amphitheatre
Parkway", radius 1000, no whitelist, and a geocoder that answers `[]`. -/
theorem C6_geocoding_failures_witness :
    queryByAddress emptyGeocoder "1600 Amphitheatre Parkway" 1000 []
        = [.get (geocodeRequest "1600 Amphitheatre Parkway"),
          .finished (failure "No geocoding result for address")] ∧
      postedBodies (queryByAddress emptyGeocoder "1600 Amphitheatre Parkway" 1000 []) = [] := by
  have h := (C6_geocoding_failures emptyGeocoder "1600 Amphitheatre Parkway" 1000 []
    rfl).2.2.1 rfl rfl rfl
  exact ⟨h, by rw [h]; rfl⟩

/-- C7: with every issued request finishing once, each call of `queryByAddress`
and each call of `queryByCoordinates` emits `finished` exactly once. The address
path is the geocoding request followed by the one result, or the geocoding
request, the POI request and the one result; the coordinate path is the POI
request and the one result. -/
theorem C7_finished_exactly_once (qt : Qt) (address : String) (lat lon : Double) (r : Int)
    (W : List PoiWhitelistEntry) :
    (finishedResults (queryByAddress qt address r W)).length = 1 ∧
    (finishedResults (queryByCoordinates qt lat lon r W)).length = 1 ∧
    ((∃ res, queryByAddress qt address r W
        = [.get (geocodeRequest address), .finished res]) ∨
      ∃ body res, queryByAddress qt address r W
        = [.get (geocodeRequest address), .post overpassRequest body, .finished res]) ∧
    (∃ body res, queryByCoordinates qt lat lon r W
      = [.post overpassRequest body, .finished res]) := by
  have haddr : (∃ res, queryByAddress qt address r W
        = [.get (geocodeRequest address), .finished res]) ∨
      ∃ body res, queryByAddress qt address r W
        = [.get (geocodeRequest address), .post overpassRequest body, .finished res] := by
    rcases geocodeFinished_shape qt (qt.getReply (geocodeRequest address)) address r W with
      ⟨res, h⟩ | ⟨body, res, h⟩
    · exact Or.inl ⟨res, by rw [queryByAddress, geocodeAddress_eq, h]⟩
    · exact Or.inr ⟨body, res, by rw [queryByAddress, geocodeAddress_eq, h]⟩
  have hcoord : ∃ body res, queryByCoordinates qt lat lon r W
      = [.post overpassRequest body, .finished res] :=
    queryOverpass_shape qt lat lon r W _
  refine ⟨?_, ?_, haddr, hcoord⟩
  · rcases haddr with ⟨res, h⟩ | ⟨body, res, h⟩ <;> rw [h] <;> rfl
  · obtain ⟨body, res, h⟩ := hcoord
    rw [h]
    rfl

/-! ## The claims about the normaliser -/

/-- C1: for an element whose tags map strings to strings, `buildResultJson_`
emits a poi for the element exactly when its type is "node" and the whitelist is
empty or some entry's key is a tag of the element with a non-empty value that the
entry's value, when not empty, equals exactly. -/
theorem C1_acceptance_rule (ts : String) (la lo : Double) (r : Int) (qi : QJsonObject)
    (W : List PoiWhitelistEntry) (e : QJsonValue)
    (htags : ∀ k v, (k, v) ∈ (QJsonObject.value e.toObject "tags").toObject →
      ∃ s, v = QJsonValue.string s) :
    resultPois (buildResultJson_ ts la lo r W [e] qi) ≠ [] ↔
      (QJsonObject.value e.toObject "type" = .string "node" ∧
        (W = [] ∨ ∃ w ∈ W, ∃ v,
          QJsonObject.contains (QJsonObject.value e.toObject "tags").toObject w.key = true ∧
          QJsonObject.value (QJsonObject.value e.toObject "tags").toObject w.key = v ∧
          v ≠ .string "" ∧ (w.value = "" ∨ v = .string w.value))) := by
  rw [← acceptsElement_iff W e htags, resultPois_eq]
  cases h : acceptsElement W e <;> simp [List.filter_cons, h]

/-- C1, the four examples of the claim: with the whitelist amenity=restaurant a
restaurant is accepted and a cafe is rejected; with the whitelist tourism (any
value) a museum is accepted and a node without the tag is rejected. -/
theorem C1_acceptance_rule_witness :
    resultPois (buildResultJson_ "" 0 0 1000 [⟨"amenity", "restaurant"⟩]
        [.object [("type", .string "node"),
          ("tags", .object [("amenity", .string "restaurant")])]] []) ≠ [] ∧
    resultPois (buildResultJson_ "" 0 0 1000 [⟨"amenity", "restaurant"⟩]
        [.object [("type", .string "node"),
          ("tags", .object [("amenity", .string "cafe")])]] []) = [] ∧
    resultPois (buildResultJson_ "" 0 0 1000 [⟨"tourism", ""⟩]
        [.object [("type", .string "node"),
          ("tags", .object [("tourism", .string "museum")])]] []) ≠ [] ∧
    resultPois (buildResultJson_ "" 0 0 1000 [⟨"tourism", ""⟩]
        [.object [("type", .string "node"),
          ("tags", .object [("amenity", .string "bank")])]] []) = [] := by
  refine ⟨?_, ?_, ?_, ?_⟩
  · refine (C1_acceptance_rule "" 0 0 1000 [] _ _ ?_).mpr ?_
    · intro k v h
      simp [QJsonObject.value, QJsonValue.toObject] at h
      exact ⟨_, h.2⟩
    · simp [QJsonObject.value, QJsonObject.contains, QJsonValue.toObject]
  · refine of_not_not fun hne => absurd ((C1_acceptance_rule "" 0 0 1000 [] _ _ ?_).mp hne) ?_
    · intro k v h
      simp [QJsonObject.value, QJsonValue.toObject] at h
      exact ⟨_, h.2⟩
    · simp [QJsonObject.value, QJsonObject.contains, QJsonValue.toObject]
  · refine (C1_acceptance_rule "" 0 0 1000 [] _ _ ?_).mpr ?_
    · intro k v h
      simp [QJsonObject.value, QJsonValue.toObject] at h
      exact ⟨_, h.2⟩
    · simp [QJsonObject.value, QJsonObject.contains, QJsonValue.toObject]
  · refine of_not_not fun hne => absurd ((C1_acceptance_rule "" 0 0 1000 [] _ _ ?_).mp hne) ?_
    · intro k v h
      simp [QJsonObject.value, QJsonValue.toObject] at h
      exact ⟨_, h.2⟩
    · simp [QJsonObject.value, QJsonObject.contains, QJsonValue.toObject]

/-- C2: `results.pois` is the raw sequence with the rejected elements deleted in
place and every remaining element normalised; the order of the raw sequence is
kept and repeated elements stay repeated. Said with the code alone: the pois of
a sequence are the pois of its elements taken one at a time, written one after
the other in the order of the sequence. -/
theorem C2_pois_filter_in_place (ts : String) (la lo : Double) (r : Int) (qi : QJsonObject)
    (W : List PoiWhitelistEntry) (els : QJsonArray) :
    resultPois (buildResultJson_ ts la lo r W els qi)
        = (els.filter (acceptsElement W)).map normalizedPoi ∧
      resultPois (buildResultJson_ ts la lo r W els qi)
        = els.flatMap (fun e => resultPois (buildResultJson_ ts la lo r W [e] qi)) := by
  refine ⟨resultPois_eq ts la lo r W els qi, ?_⟩
  rw [resultPois_eq, filter_map_eq_bind]
  congr 1
  funext e
  rw [resultPois_eq]

/-- C4: `results.count` is the length of `results.pois`, which is the number of
raw elements that are nodes and pass the acceptance rule, and so at most the
number of raw elements. -/
theorem C4_count_is_pois_length (ts : String) (la lo : Double) (r : Int) (qi : QJsonObject)
    (W : List PoiWhitelistEntry) (els : QJsonArray) :
    resultCount (buildResultJson_ ts la lo r W els qi)
        = .double ((resultPois (buildResultJson_ ts la lo r W els qi)).length : Nat) ∧
      (resultPois (buildResultJson_ ts la lo r W els qi)).length
        = (els.filter (acceptsElement W)).length ∧
      (resultPois (buildResultJson_ ts la lo r W els qi)).length ≤ els.length := by
  refine ⟨?_, ?_, ?_⟩
  · rw [resultCount_buildResultJson_, resultPois_buildResultJson_]
  · rw [resultPois_eq, List.length_map]
  · rw [resultPois_eq, List.length_map]
    exact List.length_filter_le _ _

/-- C9: the pois and the count, and so the whole member `results`, do not
depend on the order of the whitelist. -/
theorem C9_whitelist_order_irrelevant (ts : String) (la lo : Double) (r : Int)
    (qi : QJsonObject) (W W2 : List PoiWhitelistEntry) (els : QJsonArray)
    (h : W.Perm W2) :
    resultPois (buildResultJson_ ts la lo r W els qi)
        = resultPois (buildResultJson_ ts la lo r W2 els qi) ∧
      resultCount (buildResultJson_ ts la lo r W els qi)
        = resultCount (buildResultJson_ ts la lo r W2 els qi) ∧
      QJsonObject.value (buildResultJson_ ts la lo r W els qi) "results"
        = QJsonObject.value (buildResultJson_ ts la lo r W2 els qi) "results" := by
  refine ⟨?_, ?_, ?_⟩
  · rw [resultPois_eq, resultPois_eq, acceptsElement_perm W W2 h]
  · rw [resultCount_buildResultJson_, resultCount_buildResultJson_, poisLoop_eq, poisLoop_eq,
      acceptsElement_perm W W2 h]
  · simp only [buildResultJson_, QJsonObject.insert, QJsonObject.value, poisLoop_eq,
      acceptsElement_perm W W2 h]
    simp

/-- C9 at two whitelists that list the same two entries in opposite orders. -/
theorem C9_whitelist_order_irrelevant_witness :
    resultPois (buildResultJson_ "" 0 0 500 [⟨"amenity", "bank"⟩, ⟨"tourism", ""⟩]
        [.object [("type", .string "node"), ("tags", .object [("tourism", .string "museum")])],
         .object [("type", .string "node"), ("tags", .object [("amenity", .string "cafe")])]] [])
      = resultPois (buildResultJson_ "" 0 0 500 [⟨"tourism", ""⟩, ⟨"amenity", "bank"⟩]
        [.object [("type", .string "node"), ("tags", .object [("tourism", .string "museum")])],
         .object [("type", .string "node"), ("tags", .object [("amenity", .string "cafe")])]] []) ∧
    resultCount (buildResultJson_ "" 0 0 500 [⟨"amenity", "bank"⟩, ⟨"tourism", ""⟩]
        [.object [("type", .string "node"), ("tags", .object [("tourism", .string "museum")])],
         .object [("type", .string "node"), ("tags", .object [("amenity", .string "cafe")])]] [])
      = resultCount (buildResultJson_ "" 0 0 500 [⟨"tourism", ""⟩, ⟨"amenity", "bank"⟩]
        [.object [("type", .string "node"), ("tags", .object [("tourism", .string "museum")])],
         .object [("type", .string "node"), ("tags", .object [("amenity", .string "cafe")])]] []) :=
  have h := C9_whitelist_order_irrelevant "" 0 0 500 [] [⟨"amenity", "bank"⟩, ⟨"tourism", ""⟩]
    [⟨"tourism", ""⟩, ⟨"amenity", "bank"⟩]
    [.object [("type", .string "node"), ("tags", .object [("tourism", .string "museum")])],
     .object [("type", .string "node"), ("tags", .object [("amenity", .string "cafe")])]]
    (List.Perm.swap _ _ [])
  ⟨h.1, h.2.1⟩

/-- C3: for an accepted element with numeric coordinates and string tags, the
emitted poi carries the element's `lat` and `lon`, the whole tags object, and as
`name` the value of the tag "name" when the tags contain it and JSON null when
they do not; this is the poi emitted when the element is alone, and it is among
the pois of every sequence that contains the element. -/
theorem C3_poi_fields (ts : String) (la lo : Double) (r : Int) (qi : QJsonObject)
    (W : List PoiWhitelistEntry) (e : QJsonValue) (lat lon : Double) (tags : QJsonObject)
    (hacc : resultPois (buildResultJson_ ts la lo r W [e] qi) ≠ [])
    (hlat : QJsonObject.value e.toObject "lat" = .double lat)
    (hlon : QJsonObject.value e.toObject "lon" = .double lon)
    (htags : QJsonObject.value e.toObject "tags" = .object tags)
    (hstr : ∀ k v, (k, v) ∈ tags → ∃ s, v = QJsonValue.string s) :
    resultPois (buildResultJson_ ts la lo r W [e] qi)
        = [.object [("lat", .double lat), ("lon", .double lon),
            ("name", if QJsonObject.contains tags "name" then QJsonObject.value tags "name"
              else .null),
            ("tags", .object tags)]] ∧
      ∀ els : QJsonArray, e ∈ els →
        .object [("lat", .double lat), ("lon", .double lon),
            ("name", if QJsonObject.contains tags "name" then QJsonObject.value tags "name"
              else .null),
            ("tags", .object tags)] ∈ resultPois (buildResultJson_ ts la lo r W els qi) := by
  have hacc : acceptsElement W e = true := accepted_of_emitted ts la lo r W e qi hacc
  have hname : (if QJsonObject.contains tags "name" = true
        then QJsonValue.string (QJsonObject.value tags "name").toString else QJsonValue.null)
      = (if QJsonObject.contains tags "name" = true then QJsonObject.value tags "name"
        else QJsonValue.null) := by
    by_cases hc : QJsonObject.contains tags "name" = true
    · obtain ⟨s, hs⟩ := hstr _ _ (mem_of_contains _ _ hc)
      simp [hc, hs, QJsonValue.toString]
    · simp [hc]
  have hpoi : normalizedPoi e = .object [("lat", .double lat), ("lon", .double lon),
      ("name", if QJsonObject.contains tags "name" then QJsonObject.value tags "name"
        else .null), ("tags", .object tags)] := by
    simp only [normalizedPoi, hlat, hlon, htags]
    simp only [QJsonValue.toDouble, QJsonValue.toObject, hname]
  refine ⟨?_, ?_⟩
  · rw [resultPois_eq, ← hpoi]
    simp [List.filter_cons, hacc]
  · intro els he
    rw [resultPois_eq, ← hpoi]
    exact List.mem_map.mpr ⟨e, List.mem_filter.mpr ⟨he, hacc⟩, rfl⟩

/-- C3 at the node of the claim: latitude 37.4001, longitude -122.1001 and the
single tag amenity=bank give a poi with name null and tags amenity=bank. -/
theorem C3_poi_fields_witness :
    resultPois (buildResultJson_ "" 37.4 (-122.1) 500 [⟨"amenity", ""⟩]
        [.object [("type", .string "node"), ("lat", .double 37.4001),
          ("lon", .double (-122.1001)), ("tags", .object [("amenity", .string "bank")])]] [])
      = [.object [("lat", .double 37.4001), ("lon", .double (-122.1001)), ("name", .null),
          ("tags", .object [("amenity", .string "bank")])]] :=
  (C3_poi_fields "" 37.4 (-122.1) 500 [] [⟨"amenity", ""⟩]
    (.object [("type", .string "node"), ("lat", .double 37.4001),
      ("lon", .double (-122.1001)), ("tags", .object [("amenity", .string "bank")])])
    37.4001 (-122.1001) [("amenity", .string "bank")] (List.cons_ne_nil _ _) rfl rfl rfl
    (by
      intro k v h
      simp at h
      exact ⟨_, h.2⟩)).1

/-- C8: the normaliser substitutes defaults and never fails. An element whose
"tags" member is missing or not an object is emitted exactly when it is a node
and the whitelist is empty, with name null and empty tags; an element whose
"lat" or "lon" is missing or not a number is emitted, when it is emitted, with
that coordinate equal to 0; an entry that is not an object, or whose "type" is not the string
"node", is discarded; and every input yields a document with its results. -/
theorem C8_defaults_for_malformed_elements (ts : String) (la lo : Double) (r : Int)
    (qi : QJsonObject) (W : List PoiWhitelistEntry) (e : QJsonValue) :
    ((QJsonObject.value e.toObject "tags").isObject = false →
      (QJsonObject.value e.toObject "type" = .string "node" ∧ W = [] →
        resultPois (buildResultJson_ ts la lo r W [e] qi) =
          [.object [("lat", .double (QJsonObject.value e.toObject "lat").toDouble),
            ("lon", .double (QJsonObject.value e.toObject "lon").toDouble),
            ("name", .null), ("tags", .object [])]]) ∧
      (¬ (QJsonObject.value e.toObject "type" = .string "node" ∧ W = []) →
        resultPois (buildResultJson_ ts la lo r W [e] qi) = [])) ∧
    ((∀ d, QJsonObject.value e.toObject "lat" ≠ .double d) →
      ∀ p ∈ resultPois (buildResultJson_ ts la lo r W [e] qi),
        QJsonObject.value p.toObject "lat" = .double 0) ∧
    ((∀ d, QJsonObject.value e.toObject "lon" ≠ .double d) →
      ∀ p ∈ resultPois (buildResultJson_ ts la lo r W [e] qi),
        QJsonObject.value p.toObject "lon" = .double 0) ∧
    (e.isObject = false ∨ QJsonObject.value e.toObject "type" ≠ .string "node" →
      resultPois (buildResultJson_ ts la lo r W [e] qi) = []) ∧
    (∀ els : QJsonArray, ∃ pois : QJsonArray,
      QJsonObject.value (buildResultJson_ ts la lo r W els qi) "results"
        = .object [("count", .double (pois.length : Nat)), ("pois", .array pois)]) := by
  have hdef : ∀ v : QJsonValue, (∀ d, v ≠ .double d) → v.toDouble = 0 := by
    intro v hv
    cases v <;> first | rfl | exact absurd rfl (hv _)
  refine ⟨?_, ?_, ?_, ?_, ?_⟩
  · intro ht
    have htags : (QJsonObject.value e.toObject "tags").toObject = [] := by
      cases h : QJsonObject.value e.toObject "tags" <;>
        first | rfl | (rw [h] at ht; simp [QJsonValue.isObject] at ht)
    have hacc : acceptsElement W e = true ↔
        (QJsonObject.value e.toObject "type" = .string "node" ∧ W = []) := by
      rw [← isNode_iff, ← List.isEmpty_iff]
      simp [acceptsElement, htags, entryMatches, QJsonObject.value, QJsonValue.toString]
    rw [resultPois_eq]
    refine ⟨fun hc => ?_, fun hc => ?_⟩
    · have ha : acceptsElement W e = true := hacc.mpr hc
      simp [List.filter_cons, ha, normalizedPoi, htags, QJsonObject.contains]
    · have ha : acceptsElement W e = false := by
        rw [← Bool.not_eq_true]
        exact fun h => hc (hacc.mp h)
      simp [List.filter_cons, ha]
  · intro hlat p hp
    rw [resultPois_eq] at hp
    obtain ⟨x, hx, rfl⟩ := List.mem_map.mp hp
    obtain rfl : x = e := List.mem_singleton.mp (List.mem_filter.mp hx).1
    simp [normalizedPoi, toObject_object, QJsonObject.value, hdef _ hlat]
  · intro hlon p hp
    rw [resultPois_eq] at hp
    obtain ⟨x, hx, rfl⟩ := List.mem_map.mp hp
    obtain rfl : x = e := List.mem_singleton.mp (List.mem_filter.mp hx).1
    simp [normalizedPoi, toObject_object, QJsonObject.value, hdef _ hlon]
  · intro h
    have ha : acceptsElement W e = false := by
      have hn : ¬ QJsonObject.value e.toObject "type" = .string "node" := by
        rcases h with h | h
        · cases e with
          | object o => simp [QJsonValue.isObject] at h
          | _ => simp [QJsonValue.toObject, QJsonObject.value]
        · exact h
      rw [← isNode_iff, Bool.not_eq_true] at hn
      simp [acceptsElement, hn]
    rw [resultPois_eq]
    simp [List.filter_cons, ha]
  · intro els
    exact ⟨poisLoop W els [], by
      simp [buildResultJson_, QJsonObject.insert, QJsonObject.value]⟩

/-- C8 at an element that has a type and nothing else: with the empty whitelist
it is emitted with both coordinates 0, name null and empty tags. -/
theorem C8_defaults_for_malformed_elements_witness :
    resultPois (buildResultJson_ "" 0 0 500 [] [.object [("type", .string "node")]] [])
      = [.object [("lat", .double 0), ("lon", .double 0), ("name", .null),
          ("tags", .object [])]] :=
  ((C8_defaults_for_malformed_elements "" 0 0 500 [] []
    (.object [("type", .string "node")])).1 rfl).1 ⟨rfl, rfl⟩

end PoiOsm
